import Mathlib

/-!
Verification of `le-job-queue-service` (src/src/index.js).

The file embeds the JavaScript source shallowly:
JavaScript values become the inductive `JSVal`; the in-place mutation of
`removeUndefinedFields` becomes a pure function returning the mutated value;
promise chains become explicit result structures; external collaborators
(storage, encryption, provider, telemetry) are parameters of the model.
-/

namespace JobQueue

/-- A JavaScript value as far as this service inspects values:
`undefined`, `null`, booleans, numbers, strings, arrays and plain objects
(an object's fields in insertion order, as `for (var key in data)` visits
own enumerable keys). -/
inductive JSVal where
  | undef : JSVal
  | null : JSVal
  | bool : Bool → JSVal
  | num : Int → JSVal
  | str : String → JSVal
  | arr : List JSVal → JSVal
  | obj : List (String × JSVal) → JSVal
deriving Repr

/-- The strict-equality test `v === undefined` of the source. -/
def JSVal.isUndef : JSVal → Bool
  | .undef => true
  | _ => false

/-- JavaScript truthiness, as used by `if (sensitiveData)`, `if (!_publicKey)`
and `if (job.encryptedData)` in the source. -/
def truthy : JSVal → Bool
  | .undef => false
  | .null => false
  | .bool b => b
  | .num n => n != 0
  | .str s => s != ""
  | .arr _ => true
  | .obj _ => true

/-- The `splice` loop of `removeUndefinedFields`:
`for (i = 0; i < data.length; i += 1) { if (data[i] === undefined) { data.splice(i); i -= 1; } }`.
`data.splice(i)` with a single argument removes every element from index `i`
to the end, after which `i -= 1; i += 1` leaves `i` equal to the new length
and the loop exits: the array is truncated at the first `undefined` element. -/
def truncAtUndef : List JSVal → List JSVal
  | [] => []
  | v :: vs => if v.isUndef then [] else v :: truncAtUndef vs

mutual

/-- The function `removeUndefinedFields(data)` of src/src/index.js, as the pure value the
in-place mutation leaves behind.  An array is first truncated by the `splice`
loop (see `truncAtUndef`; the truncation is fused into `sanitizeElems`), then,
since `typeof data === 'object'` holds for arrays, the `for in` loop recurses
into its object-typed elements (recursing on a non-object element is the
identity, so the model recurses uniformly).  A non-array value with
`typeof data !== 'object'` is returned unchanged (`null` also ends up
unchanged: its `for in` loop visits nothing).  For an object, each own key is
visited: an object-typed value is recursed into, and an `undefined` value is
deleted. -/
def removeUndefinedFields : JSVal → JSVal
  | .arr xs => .arr (sanitizeElems xs)
  | .obj fs => .obj (sanitizeFields fs)
  | v => v

/-- The array pass of `removeUndefinedFields`, with the `splice` truncation
(`truncAtUndef`) fused with the recursive `for in` pass; `sanitizeElems_eq`
below proves the fusion equal to truncate-then-recurse. -/
def sanitizeElems : List JSVal → List JSVal
  | [] => []
  | v :: vs => if v.isUndef then [] else removeUndefinedFields v :: sanitizeElems vs

/-- The `for in` pass of `removeUndefinedFields` over an object's fields:
recurse into object-typed values, delete `undefined` values, keep the rest. -/
def sanitizeFields : List (String × JSVal) → List (String × JSVal)
  | [] => []
  | (k, v) :: fs =>
    if v.isUndef then sanitizeFields fs
    else (k, removeUndefinedFields v) :: sanitizeFields fs

end

/-- Sanity: the fused array pass equals the source's two-pass order —
truncate at the first `undefined` (the `splice` loop), then recurse into the
remaining elements (the `for in` loop). -/
theorem sanitizeElems_eq (xs : List JSVal) :
    sanitizeElems xs = (truncAtUndef xs).map removeUndefinedFields := by
  induction xs with
  | nil => simp [sanitizeElems, truncAtUndef]
  | cons v vs ih =>
    by_cases h : v.isUndef
    · simp [sanitizeElems, truncAtUndef, h]
    · simp [sanitizeElems, truncAtUndef, h, ih]

/-! ## The submitter: constructor, queue routing and `addJob` -/

/-- A configured `JobQueueService` instance: the captured constructor
arguments `queueType` (the `type` parameter, possibly `undefined`, kept in
`var queueType`). `_provider` and `_publicKey` are per-call state and are
threaded explicitly through the operation models below. -/
structure Service where
  queueType : Option String
deriving Repr

/-- The `JobQueueService` constructor: throws when no storage instance is
given, throws on a queue `type` other than `'session'`, `'fast'`,
`'default'` or `undefined`, and otherwise returns the configured service.
`storageGiven` is the truthiness of the `storage` argument. -/
def mkJobQueueService (storageGiven : Bool) (type : Option String) :
    Except String Service :=
  if !storageGiven then .error "Instance of storage service required"
  else if type != some "session" && type != some "fast" &&
      type != some "default" && type != none then
    .error ("Invalid value for the type param, value: " ++
      (type.getD "undefined"))
  else .ok { queueType := type }

/-- The queue-routing conditional of `addJob`: `'fast'` and `'session'` get
their own namespaces, everything else (i.e. `'default'` or `undefined`, the
only other values surviving construction) falls to the `else` branch. -/
def queuePath (queueType : Option String) : String :=
  if queueType = some "fast" then "_fastQueue/task"
  else if queueType = some "session" then "_sessionQueue/task"
  else "_queue/task"

/-- The result of `LeAsymmetricEncryptionService.encrypt`: an object with
`encryptedData` and `encryptedKey` fields. -/
structure EncryptedPayload where
  encryptedData : JSVal
  encryptedKey : JSVal
deriving Repr

/-- The `jobData` object `addJob` passes to `record.update`: `type` and
`data` always, and the two encrypted fields exactly when the `if
(encryptedPayload)` branch ran (each assigned separately from the payload,
hence two separate `Option` fields here). -/
structure JobData where
  type : String
  data : JSVal
  encryptedData : Option JSVal
  encryptedKey : Option JSVal
deriving Repr

/-- What one `addJob` call did: whether it invoked `fetchPublicKey`, the
cached `_publicKey` afterwards, everything `console.log` printed (the caught
encryption error, if any), the storage path of `createRecord`, and the
`jobData` written by `record.update` — which is also what the returned
promise resolves with. The model has no error outcome because every failure
path inside `addJob`'s promise chain (the `encrypt` throw) is caught. -/
structure AddJobOutcome where
  fetchedKey : Bool
  publicKeyAfter : JSVal
  logged : List String
  path : String
  jobData : JobData
deriving Repr

/-- The method `addJob(type, data, sensitiveData)` of src/src/index.js.

* `encrypt` models `LeAsymmetricEncryptionService.encrypt` (an external
  collaborator): applied to the sensitive payload and the cached key, it
  either returns a payload or throws an opaque error message.
* `fetchedValue` models the `publicKeyRecordData.value` that
  `fetchPublicKey` would cache, were it invoked.
* `publicKey` is the `_publicKey` cache before the call (initially
  `JSVal.undef`).

Steps mirror the source: both arguments are sanitized in place; the key is
fetched iff `!_publicKey && sensitiveData`; if `sensitiveData` is truthy it
is encrypted with the (possibly just fetched) key, a thrown error being
caught and logged; the record is created at the routed path; `jobData`
carries `type`, `data` and, when a payload was produced, its two encrypted
fields. -/
def addJob (encrypt : JSVal → JSVal → Except String EncryptedPayload)
    (fetchedValue : JSVal) (svc : Service) (publicKey : JSVal)
    (type : String) (data sensitiveData : JSVal) : AddJobOutcome :=
  let data := removeUndefinedFields data
  let sensitiveData := removeUndefinedFields sensitiveData
  let willFetch := !truthy publicKey && truthy sensitiveData
  let publicKey := if willFetch then fetchedValue else publicKey
  let encResult : Option EncryptedPayload × List String :=
    if truthy sensitiveData then
      match encrypt sensitiveData publicKey with
      | .ok payload => (some payload, [])
      | .error err => (none, [err])
    else (none, [])
  let encryptedPayload := encResult.1
  let jobData : JobData :=
    { type := type
      data := data
      encryptedData := encryptedPayload.map EncryptedPayload.encryptedData
      encryptedKey := encryptedPayload.map EncryptedPayload.encryptedKey }
  { fetchedKey := willFetch
    publicKeyAfter := publicKey
    logged := encResult.2
    path := queuePath svc.queueType
    jobData := jobData }

/-- Run a sequence of `addJob` calls on one submitter, threading the
`_publicKey` cache, and count how many of them invoked `fetchPublicKey`.
Each list entry is one call's `(type, data, sensitiveData)` arguments. -/
def runAddJobs (encrypt : JSVal → JSVal → Except String EncryptedPayload)
    (fetchedValue : JSVal) (svc : Service) (publicKey : JSVal) :
    List (String × JSVal × JSVal) → JSVal × Nat
  | [] => (publicKey, 0)
  | (type, data, sens) :: rest =>
    let out := addJob encrypt fetchedValue svc publicKey type data sens
    let restRun := runAddJobs encrypt fetchedValue svc out.publicKeyAfter rest
    (restRun.1, (if out.fetchedKey then 1 else 0) + restRun.2)

/-! ## `performJob`: completion detection over the record's change feed -/

/-- What a `performJob` call did to its deferred promise: `rejectedWith` is
the synchronously thrown error passed to `deferred.reject` (if any),
`callbacksProcessed` how many `sync` callbacks ran, `resolveCount` how many
times `deferred.resolve()` ran, and `unsyncAt` the feed index at which
`record.unsync()` was called (if ever). -/
structure PerformOutcome where
  rejectedWith : Option String
  callbacksProcessed : Nat
  resolveCount : Nat
  unsyncAt : Option Nat
deriving Repr

/-- One run of `performJob`'s `record.sync` callback over the stream of
`recordData` values the storage collaborator delivers (`none` models
`null`).  Returns how many callbacks were actually processed, how many times
`deferred.resolve()` ran, and whether/when `record.unsync()` was called
(index into the stream).  Per the storage contract (§6 of the spec),
`unsync` stops delivery, so processing halts right after the callback that
unsubscribed: the callback checks `recordData === null`, and on `null` calls
`record.unsync()` then `deferred.resolve()`. -/
def runSyncFeed : List (Option JSVal) → Nat × Nat × Option Nat
  | [] => (0, 0, none)
  | observation :: rest =>
    match observation with
    | none => (1, 1, some 0)
    | some _ =>
      let (processed, resolves, unsyncAt) := runSyncFeed rest
      (processed + 1, resolves, unsyncAt.map (· + 1))

/-- The method `performJob(type, data, sensitiveData)`: the `try { this.addJob(...)
.then(...) } catch (err) { deferred.reject(err); }` wrapper.  `addJobCall`
is the synchronous part of the `addJob` invocation — `.error e` models a
synchronous throw, `.ok feed` a normally returned promise whose record later
delivers the change feed `feed` to the `sync` callback. -/
def performJob (addJobCall : Except String (List (Option JSVal))) :
    PerformOutcome :=
  match addJobCall with
  | .error err =>
    { rejectedWith := some err
      callbacksProcessed := 0
      resolveCount := 0
      unsyncAt := none }
  | .ok feed =>
    { rejectedWith := none
      callbacksProcessed := (runSyncFeed feed).1
      resolveCount := (runSyncFeed feed).2.1
      unsyncAt := (runSyncFeed feed).2.2 }

/-! ## The worker wrapper: `createWorker`'s `innerProcessJob` -/

/-- A job as dispatched to the worker: the `jobData` persisted by `addJob`,
read back as an object the wrapper inspects by field (`job.type`, `job.data`,
`job.encryptedData`, `job.encryptedKey`; absent fields are `undefined`). -/
structure Job where
  type : String
  data : JSVal
  encryptedData : JSVal
  encryptedKey : JSVal
deriving Repr

/-- The `trackingEvent` object built in `innerProcessJob`'s completion
callback.  `recType` is the `_type` field; `eventDataJobCompletionTime` is
`eventData.jobCompletionTime` (the event's only `eventData` entry). -/
structure TrackingEvent where
  recType : String
  eventName : String
  happenedAt : Int
  eventDataJobCompletionTime : Int
deriving Repr

/-- The observable actions of one `innerProcessJob` invocation, in order:
calls on `logService`, the dispatch of the (possibly decrypted) job to the
user's `processJob`, the handing of the tracking event to
`dataService.create`, and the invocation of the provider's `complete`
callback. -/
inductive Effect where
  | logged (msg : String) (data : JSVal)
  | loggedError (err : String)
  | dispatched (job : Job)
  | createdEvent (e : TrackingEvent)
  | providerComplete
deriving Repr

/-- The merge `Object.assign(job.data, decryptedData)` as the wrapper uses it: the
decrypted fields are merged into the job's `data` object.  Modelled only at
the level C9 needs — for object targets the source's own-key copy; any other
target is returned as `Object.assign` leaves it (the collaborator's
decrypted plaintext shape is outside this core). -/
def assignFields : JSVal → JSVal → JSVal
  | .obj fs, .obj gs => .obj (fs ++ gs)
  | target, _ => target

/-- The handler `innerProcessJob(job, complete)` of `createWorker`, for a run in which
the user's `processJob` invokes its completion callback exactly once.

* `decrypt` models `LeAsymmetricEncryptionService.decrypt` with the worker's
  keypair already applied; it may throw.
* `jobStartTime` is `new Date().getTime()` taken at the top of the wrapper
  (dispatch to the wrapper), `jobCompleteTime` the one taken inside the
  completion callback (when the user processor invokes `complete`).

Returns the ordered list of observable actions. -/
def innerProcessJob (decrypt : EncryptedPayload → Except String JSVal)
    (job : Job) (jobStartTime jobCompleteTime : Int) : List Effect :=
  let logEffect := Effect.logged ("Processing " ++ job.type ++ " job") job.data
  let decResult : List Effect × Job :=
    if truthy job.encryptedData then
      match decrypt { encryptedData := job.encryptedData,
                      encryptedKey := job.encryptedKey } with
      | .ok decryptedData =>
        ([], { job with data := assignFields job.data decryptedData,
                        encryptedData := .undef, encryptedKey := .undef })
      | .error err => ([Effect.loggedError err], job)
    else ([], job)
  let decEffects := decResult.1
  let job := decResult.2
  let jobCompletionTime := jobCompleteTime - jobStartTime
  let trackingEvent : TrackingEvent :=
    { recType := "TrackingEvent"
      eventName := job.type ++ "-job-completed"
      happenedAt := jobCompleteTime
      eventDataJobCompletionTime := jobCompletionTime }
  [logEffect] ++ decEffects ++
    [Effect.dispatched job, Effect.createdEvent trackingEvent,
     Effect.providerComplete]

/-! ## Helper lemmas -/

/-- Sanitizing never turns a defined value into `undefined` (and leaves
`undefined` as is). -/
theorem isUndef_removeUndefinedFields (v : JSVal) :
    (removeUndefinedFields v).isUndef = v.isUndef := by
  cases v <;> rfl

/-- Sanitizing preserves JavaScript truthiness: arrays stay arrays, objects
stay objects, everything else is untouched. -/
theorem truthy_removeUndefinedFields (v : JSVal) :
    truthy (removeUndefinedFields v) = truthy v := by
  cases v <;> rfl

mutual

/-- Idempotence of the sanitizer, proved mutually with its two passes. -/
theorem removeUndefinedFields_idem : ∀ v : JSVal,
    removeUndefinedFields (removeUndefinedFields v) = removeUndefinedFields v
  | .undef => rfl
  | .null => rfl
  | .bool _ => rfl
  | .num _ => rfl
  | .str _ => rfl
  | .arr xs => by
    simp only [removeUndefinedFields]
    rw [sanitizeElems_idem xs]
  | .obj fs => by
    simp only [removeUndefinedFields]
    rw [sanitizeFields_idem fs]

/-- Idempotence of the array pass. -/
theorem sanitizeElems_idem : ∀ xs : List JSVal,
    sanitizeElems (sanitizeElems xs) = sanitizeElems xs
  | [] => rfl
  | v :: vs => by
    by_cases h : v.isUndef
    · simp only [sanitizeElems, h, if_true]
    · have hv : (removeUndefinedFields v).isUndef = false := by
        rw [isUndef_removeUndefinedFields]
        exact Bool.of_not_eq_true h
      simp only [sanitizeElems, h, if_false, Bool.false_eq_true, hv,
        removeUndefinedFields_idem v, sanitizeElems_idem vs]

/-- Idempotence of the object pass. -/
theorem sanitizeFields_idem : ∀ fs : List (String × JSVal),
    sanitizeFields (sanitizeFields fs) = sanitizeFields fs
  | [] => rfl
  | (k, v) :: fs => by
    by_cases h : v.isUndef
    · simp only [sanitizeFields, h, if_true, sanitizeFields_idem fs]
    · have hv : (removeUndefinedFields v).isUndef = false := by
        rw [isUndef_removeUndefinedFields]
        exact Bool.of_not_eq_true h
      simp only [sanitizeFields, h, if_false, Bool.false_eq_true, hv,
        removeUndefinedFields_idem v, sanitizeFields_idem fs]

end

/-! ## Claim theorems -/

/-- C1: the claim says every `undefined` element of a sequence is removed
and the remaining elements are compacted in order, at every nesting depth —
so on the array `[1, undefined, 2]` the sanitizer would have to return
`[1, 2]`. The code's `data.splice(i)` (no delete-count argument) instead
truncates the array at the first `undefined` element, discarding the defined
element `2` behind it: the sanitizer returns `[1]`, which differs from the
claimed `[1, 2]`. The stray `i -= 1` after the `splice` only makes sense for
`splice(i, 1)`, and both spec sentences demand compaction, so this is a slip
in the code. -/
theorem C1_sequence_compaction_fails_at_input :
    removeUndefinedFields (.arr [.num 1, .undef, .num 2]) = .arr [.num 1] ∧
    JSVal.arr [.num 1] ≠ JSVal.arr [.num 1, .num 2] := by
  constructor
  · rfl
  · intro h
    injection h with h2
    simpa using congrArg List.length h2

/-- C2: the payload sanitizer is idempotent — sanitizing an
already-sanitized value is a no-op: for every value `P`,
`removeUndefinedFields (removeUndefinedFields P) = removeUndefinedFields P`. -/
theorem C2_sanitizer_idempotent (P : JSVal) :
    removeUndefinedFields (removeUndefinedFields P) = removeUndefinedFields P :=
  removeUndefinedFields_idem P

/-- Closed form of an `addJob` call whose sensitive payload is truthy: the
key is fetched iff `_publicKey` was falsy, and everything downstream is
driven by the single `encrypt` call on the sanitized payload and that key. -/
theorem addJob_sensitive (encrypt : JSVal → JSVal → Except String EncryptedPayload)
    (fv : JSVal) (svc : Service) (pk : JSVal) (ty : String) (d s : JSVal)
    (hs : truthy s = true) :
    addJob encrypt fv svc pk ty d s =
      { fetchedKey := !truthy pk
        publicKeyAfter := if !truthy pk then fv else pk
        logged :=
          match encrypt (removeUndefinedFields s) (if !truthy pk then fv else pk) with
          | .ok _ => []
          | .error e => [e]
        path := queuePath svc.queueType
        jobData :=
          { type := ty
            data := removeUndefinedFields d
            encryptedData :=
              match encrypt (removeUndefinedFields s) (if !truthy pk then fv else pk) with
              | .ok p => some p.encryptedData
              | .error _ => none
            encryptedKey :=
              match encrypt (removeUndefinedFields s) (if !truthy pk then fv else pk) with
              | .ok p => some p.encryptedKey
              | .error _ => none } } := by
  unfold addJob
  simp only [truthy_removeUndefinedFields, hs, Bool.and_true, if_true]
  cases henc : encrypt (removeUndefinedFields s) (if !truthy pk then fv else pk) <;>
    simp [henc]

/-- Closed form of an `addJob` call whose sensitive payload is falsy: no key
fetch, no encryption, no log output; the record carries only the type and
the sanitized data. -/
theorem addJob_not_sensitive (encrypt : JSVal → JSVal → Except String EncryptedPayload)
    (fv : JSVal) (svc : Service) (pk : JSVal) (ty : String) (d s : JSVal)
    (hs : truthy s = false) :
    addJob encrypt fv svc pk ty d s =
      { fetchedKey := false
        publicKeyAfter := pk
        logged := []
        path := queuePath svc.queueType
        jobData :=
          { type := ty
            data := removeUndefinedFields d
            encryptedData := none
            encryptedKey := none } } := by
  unfold addJob
  simp [truthy_removeUndefinedFields, hs]

/-- C3: in every job record created by `addJob`, `encryptedData` and
`encryptedKey` are both present or both absent, and they are present exactly
when the sensitive-data argument was supplied (truthy) and the encryption
collaborator succeeded on the sanitized payload with the key `addJob` ended
up caching. -/
theorem C3_encrypted_fields_paired
    (encrypt : JSVal → JSVal → Except String EncryptedPayload)
    (fv : JSVal) (svc : Service) (pk : JSVal) (ty : String) (d s : JSVal) :
    ((addJob encrypt fv svc pk ty d s).jobData.encryptedData.isSome ↔
      (addJob encrypt fv svc pk ty d s).jobData.encryptedKey.isSome) ∧
    ((addJob encrypt fv svc pk ty d s).jobData.encryptedData.isSome ↔
      truthy s = true ∧
      ∃ p, encrypt (removeUndefinedFields s)
        (addJob encrypt fv svc pk ty d s).publicKeyAfter = .ok p) := by
  by_cases hs : truthy s = true
  · rw [addJob_sensitive encrypt fv svc pk ty d s hs]
    cases henc : encrypt (removeUndefinedFields s) (if !truthy pk then fv else pk) with
    | ok p => simp [henc, hs]
    | error e => simp [henc, hs]
  · have hs' : truthy s = false := by simpa using hs
    rw [addJob_not_sensitive encrypt fv svc pk ty d s hs']
    simp [hs']

/-- C4: routing and construction-time validation.  An `addJob` on a
submitter constructed with queue type `fast` creates its record at
`_fastQueue/task`, with `session` at `_sessionQueue/task`, and with
`default` or the type left unset at `_queue/task`; those four type values
(and only they) construct successfully, and every other type value makes the
`JobQueueService` constructor itself throw the configuration error — `addJob`
never inspects the type's validity. -/
theorem C4_routing_and_validation :
    (∀ (encrypt : JSVal → JSVal → Except String EncryptedPayload)
       (fv pk : JSVal) (ty : String) (d s : JSVal),
      (addJob encrypt fv { queueType := some "fast" } pk ty d s).path =
        "_fastQueue/task" ∧
      (addJob encrypt fv { queueType := some "session" } pk ty d s).path =
        "_sessionQueue/task" ∧
      (addJob encrypt fv { queueType := some "default" } pk ty d s).path =
        "_queue/task" ∧
      (addJob encrypt fv { queueType := none } pk ty d s).path =
        "_queue/task") ∧
    (mkJobQueueService true (some "fast") = .ok { queueType := some "fast" } ∧
     mkJobQueueService true (some "session") = .ok { queueType := some "session" } ∧
     mkJobQueueService true (some "default") = .ok { queueType := some "default" } ∧
     mkJobQueueService true none = .ok { queueType := none }) ∧
    (∀ t : Option String, t ≠ some "session" → t ≠ some "fast" →
       t ≠ some "default" → t ≠ none →
      mkJobQueueService true t =
        .error ("Invalid value for the type param, value: " ++ t.getD "undefined")) := by
  refine ⟨?_, ⟨rfl, rfl, rfl, rfl⟩, ?_⟩
  · intro encrypt fv pk ty d s
    refine ⟨rfl, rfl, rfl, rfl⟩
  · intro t h1 h2 h3 h4
    have hbne : (t != some "session" && t != some "fast" &&
        t != some "default" && t != none) = true := by
      simp [h1, h2, h3, h4]
    simp [mkJobQueueService, hbne]

/-- Witness for C4: the invalid queue type `'weird'` satisfies the four
inequalities and is rejected by the constructor with the configuration
error. -/
theorem C4_routing_and_validation_witness :
    ((some "weird" : Option String) ≠ some "session" ∧
     (some "weird" : Option String) ≠ some "fast" ∧
     (some "weird" : Option String) ≠ some "default" ∧
     (some "weird" : Option String) ≠ none) ∧
    mkJobQueueService true (some "weird") =
      .error ("Invalid value for the type param, value: " ++
        (some "weird" : Option String).getD "undefined") :=
  ⟨⟨by decide, by decide, by decide, by decide⟩,
   C4_routing_and_validation.2.2 (some "weird")
     (by decide) (by decide) (by decide) (by decide)⟩

/-- C5: when the encryption step of an `addJob` call carrying (truthy)
sensitive data throws, the error is caught and logged (`console.log`
receives exactly the thrown error) and submission proceeds: the record is
still created at the routed path, its `jobData` carries the type and the
sanitized data but neither encrypted field, and the call completes normally
(the model's `addJob` is total — the throw never escapes the `catch`). -/
theorem C5_encryption_failure_nonfatal
    (encrypt : JSVal → JSVal → Except String EncryptedPayload)
    (fv : JSVal) (svc : Service) (pk : JSVal) (ty : String) (d s : JSVal)
    (err : String) (hs : truthy s = true)
    (henc : encrypt (removeUndefinedFields s) (if !truthy pk then fv else pk) =
      .error err) :
    (addJob encrypt fv svc pk ty d s).logged = [err] ∧
    (addJob encrypt fv svc pk ty d s).jobData =
      { type := ty
        data := removeUndefinedFields d
        encryptedData := none
        encryptedKey := none } ∧
    (addJob encrypt fv svc pk ty d s).path = queuePath svc.queueType := by
  rw [addJob_sensitive encrypt fv svc pk ty d s hs]
  simp only [Bool.not_eq_true'] at henc
  simp [henc]

/-- Witness for C5: a concrete encryption collaborator that always throws
`'boom'`; the job still comes out with only the type and sanitized data. -/
theorem C5_encryption_failure_nonfatal_witness :
    truthy (JSVal.obj [("card", JSVal.str "4111")]) = true ∧
    ((fun (_ _ : JSVal) => (Except.error "boom" : Except String EncryptedPayload))
        (removeUndefinedFields (JSVal.obj [("card", JSVal.str "4111")]))
        (if !truthy JSVal.undef then JSVal.undef else JSVal.undef) =
      .error "boom") ∧
    ((addJob (fun _ _ => .error "boom") JSVal.undef { queueType := none }
        JSVal.undef "charge" JSVal.null
        (JSVal.obj [("card", JSVal.str "4111")])).logged = ["boom"] ∧
     (addJob (fun _ _ => .error "boom") JSVal.undef { queueType := none }
        JSVal.undef "charge" JSVal.null
        (JSVal.obj [("card", JSVal.str "4111")])).jobData =
      { type := "charge"
        data := removeUndefinedFields JSVal.null
        encryptedData := none
        encryptedKey := none } ∧
     (addJob (fun _ _ => .error "boom") JSVal.undef { queueType := none }
        JSVal.undef "charge" JSVal.null
        (JSVal.obj [("card", JSVal.str "4111")])).path = queuePath none) :=
  ⟨rfl, rfl,
   C5_encryption_failure_nonfatal (fun _ _ => .error "boom") JSVal.undef
     { queueType := none } JSVal.undef "charge" JSVal.null
     (JSVal.obj [("card", JSVal.str "4111")]) "boom" rfl rfl⟩

/-- An `addJob` call fetches the key exactly when `!_publicKey &&
sensitiveData` holds — the only fetch trigger in the submission path. -/
theorem addJob_fetchedKey (encrypt : JSVal → JSVal → Except String EncryptedPayload)
    (fv : JSVal) (svc : Service) (pk : JSVal) (ty : String) (d s : JSVal) :
    (addJob encrypt fv svc pk ty d s).fetchedKey = (!truthy pk && truthy s) := by
  unfold addJob
  simp [truthy_removeUndefinedFields]

/-- The `_publicKey` cache after an `addJob` call: the fetched value when the
call fetched, the old cache otherwise. -/
theorem addJob_publicKeyAfter (encrypt : JSVal → JSVal → Except String EncryptedPayload)
    (fv : JSVal) (svc : Service) (pk : JSVal) (ty : String) (d s : JSVal) :
    (addJob encrypt fv svc pk ty d s).publicKeyAfter =
      if !truthy pk && truthy s then fv else pk := by
  unfold addJob
  simp [truthy_removeUndefinedFields]

/-- Once the cached key is truthy, no later `addJob` in the sequence fetches
again (and the cache is never overwritten). -/
theorem runAddJobs_count_of_truthy
    (encrypt : JSVal → JSVal → Except String EncryptedPayload)
    (fv : JSVal) (svc : Service) :
    ∀ (pk : JSVal) (calls : List (String × JSVal × JSVal)),
      truthy pk = true → (runAddJobs encrypt fv svc pk calls).2 = 0
  | _, [], _ => rfl
  | pk, (ty, d, s) :: rest, h => by
    have hfk : (addJob encrypt fv svc pk ty d s).fetchedKey = false := by
      rw [addJob_fetchedKey]
      simp [h]
    have hpa : (addJob encrypt fv svc pk ty d s).publicKeyAfter = pk := by
      rw [addJob_publicKeyAfter]
      simp [h]
    simp only [runAddJobs, hfk, hpa, Bool.false_eq_true, if_false,
      runAddJobs_count_of_truthy encrypt fv svc pk rest h]

/-- Starting from the empty cache (`_publicKey === undefined`), a sequence
of `addJob` calls fetches the key at most once, provided the fetched key
value is truthy (a successful fetch). -/
theorem runAddJobs_count_le_one
    (encrypt : JSVal → JSVal → Except String EncryptedPayload)
    (fv : JSVal) (svc : Service) (hfv : truthy fv = true) :
    ∀ calls : List (String × JSVal × JSVal),
      (runAddJobs encrypt fv svc JSVal.undef calls).2 ≤ 1
  | [] => by simp [runAddJobs]
  | (ty, d, s) :: rest => by
    by_cases hs : truthy s = true
    · have hfk : (addJob encrypt fv svc JSVal.undef ty d s).fetchedKey = true := by
        rw [addJob_fetchedKey]
        simp only [hs, Bool.and_true]
        rfl
      have hpa : (addJob encrypt fv svc JSVal.undef ty d s).publicKeyAfter = fv := by
        rw [addJob_publicKeyAfter]
        simp only [hs, Bool.and_true]
        rfl
      simp [runAddJobs, hfk, hpa,
        runAddJobs_count_of_truthy encrypt fv svc fv rest hfv]
    · have hs' : truthy s = false := by simpa using hs
      have hfk : (addJob encrypt fv svc JSVal.undef ty d s).fetchedKey = false := by
        rw [addJob_fetchedKey]
        simp [hs']
      have hpa : (addJob encrypt fv svc JSVal.undef ty d s).publicKeyAfter =
          JSVal.undef := by
        rw [addJob_publicKeyAfter]
        simp [hs']
      simp only [runAddJobs, hfk, Bool.false_eq_true, if_false, hpa, Nat.zero_add]
      exact runAddJobs_count_le_one encrypt fv svc hfv rest

/-- C6: the fetch trigger and the fetch-once bound.  (1) An `addJob` call
invokes `fetchPublicKey` exactly when no public key is cached (`_publicKey`
falsy) and the sensitive-data argument is truthy — in the model this is the
only way `fetchedKey` becomes true, mirroring the source where no other call
site triggers the fetch.  (2) Across any sequence of `addJob` calls on one
submitter starting with an empty cache, if the fetched key value is truthy
(the first fetch succeeds and caches a usable key), the key-fetch
collaborator is invoked at most once. -/
theorem C6_key_fetch_once :
    (∀ (encrypt : JSVal → JSVal → Except String EncryptedPayload)
       (fv : JSVal) (svc : Service) (pk : JSVal) (ty : String) (d s : JSVal),
      (addJob encrypt fv svc pk ty d s).fetchedKey = (!truthy pk && truthy s)) ∧
    (∀ (encrypt : JSVal → JSVal → Except String EncryptedPayload)
       (fv : JSVal) (svc : Service) (calls : List (String × JSVal × JSVal)),
      truthy fv = true →
      (runAddJobs encrypt fv svc JSVal.undef calls).2 ≤ 1) :=
  ⟨addJob_fetchedKey, fun encrypt fv svc calls hfv =>
    runAddJobs_count_le_one encrypt fv svc hfv calls⟩

/-- Witness for C6: two consecutive sensitive `addJob` calls with a truthy
fetched key fetch at most once (here: exactly on the first call). -/
theorem C6_key_fetch_once_witness :
    truthy (JSVal.str "pubkey") = true ∧
    (runAddJobs (fun _ _ => .ok { encryptedData := JSVal.str "ed",
                                  encryptedKey := JSVal.str "ek" })
      (JSVal.str "pubkey") { queueType := none } JSVal.undef
      [("a", JSVal.null, JSVal.obj []), ("b", JSVal.null, JSVal.obj [])]).2 ≤ 1 :=
  ⟨rfl,
   C6_key_fetch_once.2
     (fun _ _ => .ok { encryptedData := JSVal.str "ed",
                       encryptedKey := JSVal.str "ek" })
     (JSVal.str "pubkey") { queueType := none }
     [("a", JSVal.null, JSVal.obj []), ("b", JSVal.null, JSVal.obj [])] rfl⟩

/-- C7: a synchronous throw during the `addJob` invocation inside
`performJob` is caught by the `try`/`catch` and turned into a rejection of
the deferred promise `performJob` returns — the promise is rejected with
that very error, nothing was resolved, and no subscription was ever set
up. -/
theorem C7_sync_error_becomes_rejection (err : String) :
    performJob (.error err) =
      { rejectedWith := some err
        callbacksProcessed := 0
        resolveCount := 0
        unsyncAt := none } := rfl

/-- Running the `sync` callback over a feed whose first `null` comes after
the non-null prefix `pre`: every prefix callback runs, the callback at the
`null` unsubscribes and resolves, and nothing behind it is processed. -/
theorem runSyncFeed_first_null (pre rest : List (Option JSVal))
    (hpre : ∀ o ∈ pre, o ≠ none) :
    runSyncFeed (pre ++ none :: rest) = (pre.length + 1, 1, some pre.length) := by
  induction pre with
  | nil => simp [runSyncFeed]
  | cons o os ih =>
    obtain ⟨v, rfl⟩ : ∃ v, o = some v := by
      cases o with
      | none => exact absurd rfl (hpre none (by simp))
      | some v => exact ⟨v, rfl⟩
    have ih' := ih fun o' ho' => hpre o' (by simp [ho'])
    simp [runSyncFeed, ih']

/-- C8: completion detection.  For a `performJob` whose record's change feed
delivers the non-null observations `pre` and then `null` (the transition to
a consumed record), the returned promise is never rejected and resolves
exactly once, `record.unsync()` is called right at that first `null`
observation (feed index `pre.length`), and exactly the callbacks up to and
including it are processed — none after the unsubscription. -/
theorem C8_resolves_once_at_first_null (pre rest : List (Option JSVal))
    (hpre : ∀ o ∈ pre, o ≠ none) :
    performJob (.ok (pre ++ none :: rest)) =
      { rejectedWith := none
        callbacksProcessed := pre.length + 1
        resolveCount := 1
        unsyncAt := some pre.length } := by
  simp [performJob, runSyncFeed_first_null pre rest hpre]

/-- Witness for C8: a feed observing the record once (non-null), then its
deletion, then a stray later event that is never processed. -/
theorem C8_resolves_once_at_first_null_witness :
    (∀ o ∈ [some (JSVal.num 1)], o ≠ (none : Option JSVal)) ∧
    performJob (.ok ([some (JSVal.num 1)] ++ none :: [some (JSVal.num 2)])) =
      { rejectedWith := none
        callbacksProcessed := 2
        resolveCount := 1
        unsyncAt := some 1 } :=
  ⟨by simp,
   C8_resolves_once_at_first_null [some (JSVal.num 1)] [some (JSVal.num 2)]
     (by simp)⟩

/-- C9: completion telemetry.  For a job dispatched to the worker wrapper at
time `jobStartTime` whose user processor invokes `complete` `dt`
milliseconds later, the wrapper's run is some prefix (the log line and, on a
decryption error, the error log) followed by: the dispatch of the job to the
user processor, the handing of the tracking event — with `eventName` equal
to `job.type ++ "-job-completed"` and `eventData.jobCompletionTime` equal to
`dt` — to the telemetry collaborator, and then, after it, the invocation of
the provider's original `complete` callback. -/
theorem C9_completion_telemetry (decrypt : EncryptedPayload → Except String JSVal)
    (job : Job) (jobStartTime dt : Int) :
    ∃ (preEffects : List Effect) (dispatchedJob : Job),
      innerProcessJob decrypt job jobStartTime (jobStartTime + dt) =
        preEffects ++
          [Effect.dispatched dispatchedJob,
           Effect.createdEvent
             { recType := "TrackingEvent"
               eventName := job.type ++ "-job-completed"
               happenedAt := jobStartTime + dt
               eventDataJobCompletionTime := dt },
           Effect.providerComplete] := by
  have ht : jobStartTime + dt - jobStartTime = dt := by omega
  by_cases h : truthy job.encryptedData = true
  · cases hdec : decrypt (EncryptedPayload.mk job.encryptedData job.encryptedKey) with
    | ok dd =>
      refine ⟨[Effect.logged ("Processing " ++ job.type ++ " job") job.data],
        { job with data := assignFields job.data dd,
                   encryptedData := .undef, encryptedKey := .undef }, ?_⟩
      simp [innerProcessJob, h, hdec, ht]
    | error e =>
      refine ⟨[Effect.logged ("Processing " ++ job.type ++ " job") job.data,
        Effect.loggedError e], job, ?_⟩
      simp [innerProcessJob, h, hdec, ht]
  · have h' : truthy job.encryptedData = false := by simpa using h
    refine ⟨[Effect.logged ("Processing " ++ job.type ++ " job") job.data],
      job, ?_⟩
    simp [innerProcessJob, h', ht]

/-- C10: the raw sensitive fragment never reaches storage.  The `jobData`
written by `addJob` consists of exactly the job type, the sanitized `data`
argument, and — only when present — encrypted fields that are verbatim the
output of the encryption collaborator; on an encryption failure (or with no
sensitive data) both encrypted fields are simply absent.  The structure has
no other fields, so the `sensitiveData` value itself is never part of the
persisted record. -/
theorem C10_sensitive_never_stored_plain
    (encrypt : JSVal → JSVal → Except String EncryptedPayload)
    (fv : JSVal) (svc : Service) (pk : JSVal) (ty : String) (d s : JSVal) :
    (addJob encrypt fv svc pk ty d s).jobData.type = ty ∧
    (addJob encrypt fv svc pk ty d s).jobData.data = removeUndefinedFields d ∧
    (((addJob encrypt fv svc pk ty d s).jobData.encryptedData = none ∧
      (addJob encrypt fv svc pk ty d s).jobData.encryptedKey = none) ∨
     ∃ p, encrypt (removeUndefinedFields s)
         (addJob encrypt fv svc pk ty d s).publicKeyAfter = .ok p ∧
       (addJob encrypt fv svc pk ty d s).jobData.encryptedData =
         some p.encryptedData ∧
       (addJob encrypt fv svc pk ty d s).jobData.encryptedKey =
         some p.encryptedKey) := by
  by_cases hs : truthy s = true
  · rw [addJob_sensitive encrypt fv svc pk ty d s hs]
    cases henc : encrypt (removeUndefinedFields s) (if !truthy pk then fv else pk) with
    | ok p => simp [henc]
    | error e => simp [henc]
  · have hs' : truthy s = false := by simpa using hs
    rw [addJob_not_sensitive encrypt fv svc pk ty d s hs']
    simp

end JobQueue
